import Mathlib

/-
Verification of the grid-system core of map-utils-xethhung12
(src/map_utils_xethhung12/GridSystem.py).

Modelling conventions:
* Python floats are modelled as exact rationals (ℚ).
* Python `int(x)` is truncation toward zero (`pyTrunc`).
* A Python `while cur < stop: ...; cur += step` loop is modelled by a
  structurally recursive function driven by a fuel argument; the fuel is the
  exact number of iterations whenever `0 < step` (proved below), so for
  positive steps the model is the loop.  For `step ≤ 0` the Python loop would
  not terminate on a nonempty range; that divergent behaviour is outside the
  model, and every claim below about the loops assumes positive steps.
* The MD5 digest of `get_hash_from_latlon` is modelled by its input message:
  the digest is a pure function of the message, so equal messages yield equal
  digests, and the distinct short messages appearing here have distinct
  digests.
-/

/- Batteries marks the rational arithmetic operations irreducible, which keeps
`decide` from evaluating concrete rational expressions; restore the default
reducibility so the concrete witnesses below evaluate. -/
set_option allowUnsafeReducibility true
attribute [local semireducible] Rat.add Rat.mul Rat.sub Rat.inv Rat.ofScientific

namespace MapUtils

/-- LatLon (GridSystem.py lines 7-11): a latitude/longitude pair. -/
structure LatLon where
  lat : ℚ
  lon : ℚ
deriving DecidableEq

/-- Surface (lines 13-17): a rectangle given by bottom-left and top-right. -/
structure Surface where
  bottom_left : LatLon
  top_right : LatLon
deriving DecidableEq

/-- GridCell (lines 19-23): a cell footprint with its hash identifier. -/
structure GridCell where
  surface : Surface
  hash_id : String
deriving DecidableEq

/-- GridSystem (lines 25-39): the governing surface and the two step sizes.
The `_round_precision` attribute is the constant 6; it is inlined into the
formatting function `fmt6` below. -/
structure GridSystem where
  surface : Surface
  lat_step : ℚ
  lon_step : ℚ
deriving DecidableEq

/-- GridSystem.__init__ (lines 29-39).  The constructor only stores its three
arguments; it contains no validation and no raise statement.  The error
channel of `Except` makes the absence of a raised ConfigurationError
expressible: the result is always `Except.ok`. -/
def GridSystem.init (surface : Surface) (lat_step lon_step : ℚ) :
    Except String GridSystem :=
  Except.ok ⟨surface, lat_step, lon_step⟩

/-- Python `int(x)` applied to a float: truncation toward zero. -/
def pyTrunc (q : ℚ) : ℤ :=
  if 0 ≤ q then ⌊q⌋ else ⌈q⌉

/-- Rounding to the nearest integer, ties to even, as IEEE-754 formatting
(and hence Python float formatting) does. -/
def roundHalfEven (q : ℚ) : ℤ :=
  if q - ⌊q⌋ < 1/2 then ⌊q⌋
  else if 1/2 < q - ⌊q⌋ then ⌊q⌋ + 1
  else if ⌊q⌋ % 2 = 0 then ⌊q⌋ else ⌊q⌋ + 1

/-- The value of `x` rounded to 6 decimal places, as a rational. -/
def round6 (q : ℚ) : ℚ :=
  (roundHalfEven (q * 1000000) : ℚ) / 1000000

/-- Zero-padding of a fraction part `k < 10^6` to exactly six digits, as the
fixed-precision format `%.6f` produces. -/
def pad6 (k : Nat) : String :=
  if k < 10 then "00000" ++ toString k
  else if k < 100 then "0000" ++ toString k
  else if k < 1000 then "000" ++ toString k
  else if k < 10000 then "00" ++ toString k
  else if k < 100000 then "0" ++ toString k
  else toString k

/-- Python float formatting with six fraction digits (the f-string field
`:.6f` used on line 76): round the value to 6 decimals (ties to even), then
print sign, integer part, a dot, and the six zero-padded fraction digits.
A negative value whose rounded magnitude is zero keeps its sign: Python
formats -1e-9 as "-0.000000". -/
def fmt6 (q : ℚ) : String :=
  (if q < 0 then "-" else "")
    ++ toString ((roundHalfEven (q * 1000000)).natAbs / 1000000)
    ++ "."
    ++ pad6 ((roundHalfEven (q * 1000000)).natAbs % 1000000)

/-- GridSystem.get_hash_from_latlon (lines 72-77): format both coordinates to
six decimals, join with a comma, and take the MD5 digest of the result.  The
digest is modelled by the message itself (see the header comment). -/
def GridSystem.get_hash_from_latlon (_gs : GridSystem) (lat lon : ℚ) : String :=
  fmt6 lat ++ "," ++ fmt6 lon

/-- The half-open boundary test of get_grid_cell_by_latlon (lines 47-48):
inclusive lower bound, exclusive upper bound on both axes. -/
def Surface.containsPt (s : Surface) (lat lon : ℚ) : Prop :=
  s.bottom_left.lat ≤ lat ∧ lat < s.top_right.lat ∧
  s.bottom_left.lon ≤ lon ∧ lon < s.top_right.lon

instance (s : Surface) (lat lon : ℚ) : Decidable (s.containsPt lat lon) := by
  unfold Surface.containsPt
  infer_instance

/-- GridSystem.get_grid_cell_by_latlon (lines 41-70): reject points outside
the half-open surface, otherwise quantize each coordinate with `int`
truncation, clip the far corner to the surface, and hash the cell's own
bottom-left corner. -/
def GridSystem.get_grid_cell_by_latlon (gs : GridSystem) (lat lon : ℚ) :
    Option GridCell :=
  if gs.surface.containsPt lat lon then
    let bottom_left_lat := gs.surface.bottom_left.lat +
      (pyTrunc ((lat - gs.surface.bottom_left.lat) / gs.lat_step) : ℚ) * gs.lat_step
    let bottom_left_lon := gs.surface.bottom_left.lon +
      (pyTrunc ((lon - gs.surface.bottom_left.lon) / gs.lon_step) : ℚ) * gs.lon_step
    some ⟨⟨⟨bottom_left_lat, bottom_left_lon⟩,
          ⟨min (bottom_left_lat + gs.lat_step) gs.surface.top_right.lat,
           min (bottom_left_lon + gs.lon_step) gs.surface.top_right.lon⟩⟩,
         gs.get_hash_from_latlon bottom_left_lat bottom_left_lon⟩
  else
    none

/-- One `while cur < stop:` loop yielding `f cur` and advancing by `step`,
unrolled on a fuel argument (see the header comment). -/
def whileStep {α : Type} (step stop : ℚ) (f : ℚ → α) : Nat → ℚ → List α
  | 0, _ => []
  | n + 1, cur =>
    if cur < stop then f cur :: whileStep step stop f n (cur + step) else []

/-- The exact number of iterations of the loop from `start` whenever
`0 < step` (proved in `whileStep_eq_map_range`). -/
def loopFuel (step start stop : ℚ) : Nat :=
  (⌈(stop - start) / step⌉).toNat

/-- The loop `cur = start; while cur < stop: yield f(cur); cur += step`. -/
def whileLt {α : Type} (step : ℚ) (f : ℚ → α) (start stop : ℚ) : List α :=
  whileStep step stop f (loopFuel step start stop) start

/-- GridSystem.get_all_grid_cells (lines 79-100): nested loops over latitude
(outer, advancing by lat_step) and longitude (inner, advancing by lon_step),
each cell clipped to the surface's top-right corner and hashed at its own
origin.  The generator is modelled as the flat list of yielded cells. -/
def GridSystem.get_all_grid_cells (gs : GridSystem) : List GridCell :=
  (whileLt gs.lat_step (fun current_lat =>
      whileLt gs.lon_step (fun current_lon =>
          GridCell.mk
            (Surface.mk (LatLon.mk current_lat current_lon)
              (LatLon.mk (min (current_lat + gs.lat_step) gs.surface.top_right.lat)
                (min (current_lon + gs.lon_step) gs.surface.top_right.lon)))
            (gs.get_hash_from_latlon current_lat current_lon))
        gs.surface.bottom_left.lon gs.surface.top_right.lon)
    gs.surface.bottom_left.lat gs.surface.top_right.lat).flatten

/-- GridSystem.get_grid_cells_for_surface (lines 102-139): quantize the input
surface's bottom-left against the governing surface, then loop row by row and
column by column, clipping each cell to the input surface's top-right.  The
containment check on lines 106-110 only prints a warning and does not affect
the result, so it is not modelled.  Note line 137: the outer (row) cursor
advances by `lon_step`, not `lat_step`. -/
def GridSystem.get_grid_cells_for_surface (gs : GridSystem)
    (input_surface : Surface) : List (List GridCell) :=
  let start_lat := gs.surface.bottom_left.lat +
    (pyTrunc ((input_surface.bottom_left.lat - gs.surface.bottom_left.lat) / gs.lat_step) : ℚ)
      * gs.lat_step
  let start_lon := gs.surface.bottom_left.lon +
    (pyTrunc ((input_surface.bottom_left.lon - gs.surface.bottom_left.lon) / gs.lon_step) : ℚ)
      * gs.lon_step
  whileLt gs.lon_step (fun current_lat =>
      whileLt gs.lon_step (fun current_lon =>
          GridCell.mk
            (Surface.mk (LatLon.mk current_lat current_lon)
              (LatLon.mk (min (current_lat + gs.lat_step) input_surface.top_right.lat)
                (min (current_lon + gs.lon_step) input_surface.top_right.lon)))
            (gs.get_hash_from_latlon current_lat current_lon))
        start_lon input_surface.top_right.lon)
    start_lat input_surface.top_right.lat

/-- Modelled from the spec: the geodesic distance backend
`geopy.distance.geodesic(a, b).meters` used on line 154 is a third-party
dependency whose source is not part of this repository.  The spec (section
4.5) specifies it as a pure distance of the two coordinate pairs, symmetric
and zero for coincident points; it is modelled here by a representative
computable distance with those properties (the taxicab distance of the
pairs), standing in for the ellipsoidal geodesic formula. -/
def geodesic_meters (a b : ℚ × ℚ) : ℚ :=
  |a.1 - b.1| + |a.2 - b.2|

/-- calculate_geodesic_distance (lines 145-154): passes `(lat, lon)` tuples of
the two points, in order, to the geodesic backend. -/
def calculate_geodesic_distance (point1 point2 : LatLon) : ℚ :=
  geodesic_meters (point1.lat, point1.lon) (point2.lat, point2.lon)

/-! Concrete instances used by the witnesses: a 2x2-degree surface carved
into 1-degree cells. -/

/-- A small concrete grid system for witnesses. -/
def demoGrid : GridSystem :=
  ⟨⟨⟨0, 0⟩, ⟨2, 2⟩⟩, 1, 1⟩

/-- The demo grid's own surface, reused as a query sub-surface. -/
def demoSurface : Surface :=
  ⟨⟨0, 0⟩, ⟨2, 2⟩⟩

/-- The cell of `demoGrid` at origin (0, 0). -/
def demoCellA : GridCell :=
  ⟨⟨⟨0, 0⟩, ⟨1, 1⟩⟩, demoGrid.get_hash_from_latlon 0 0⟩

/-- The cell of `demoGrid` at origin (1, 0). -/
def demoCellB : GridCell :=
  ⟨⟨⟨1, 0⟩, ⟨2, 1⟩⟩, demoGrid.get_hash_from_latlon 1 0⟩

/-- A grid whose lon_step exceeds its lat_step, exposing the row-advance
defect of get_grid_cells_for_surface (line 137). -/
def skewGrid : GridSystem :=
  ⟨⟨⟨0, 0⟩, ⟨4, 4⟩⟩, 1, 2⟩

/-- The skew grid's own surface, used as the coverage query. -/
def skewSurface : Surface :=
  ⟨⟨0, 0⟩, ⟨4, 4⟩⟩

/-! Loop lemmas: the fuel-driven loop model equals the ideal arithmetic
sequence of iterations whenever the step is positive. -/

/-- Every element yielded by the loop body is an image of `f`. -/
theorem mem_whileStep {α : Type} {step stop : ℚ} {f : ℚ → α} {a : α} :
    ∀ {n : Nat} {cur : ℚ}, a ∈ whileStep step stop f n cur → ∃ x, a = f x := by
  intro n
  induction n with
  | zero => intro cur h; simp [whileStep] at h
  | succ n ih =>
    intro cur h
    simp only [whileStep] at h
    by_cases hc : cur < stop
    · rw [if_pos hc] at h
      rcases List.mem_cons.mp h with h | h
      · exact ⟨cur, h⟩
      · exact ih h
    · rw [if_neg hc] at h
      simp at h

/-- With a positive step, one more iteration remains from `cur` than from
`cur + step` while `cur < stop`. -/
theorem loopFuel_succ {step cur stop : ℚ} (hstep : 0 < step) (h : cur < stop) :
    loopFuel step cur stop = loopFuel step (cur + step) stop + 1 := by
  unfold loopFuel
  have hne : step ≠ 0 := ne_of_gt hstep
  have hq : (stop - cur) / step = (stop - (cur + step)) / step + 1 := by
    field_simp
    ring
  have hpos : 0 < ⌈(stop - cur) / step⌉ := by
    rw [Int.ceil_pos]
    exact div_pos (by linarith) hstep
  rw [hq, Int.ceil_add_one] at hpos ⊢
  omega

/-- With a positive step and the exact fuel, the loop is the map of the body
over the arithmetic sequence of cursor values. -/
theorem whileStep_eq_map_range {α : Type} {step stop : ℚ} (hstep : 0 < step)
    (f : ℚ → α) :
    ∀ (n : Nat) (cur : ℚ), n = loopFuel step cur stop →
      whileStep step stop f n cur =
        (List.range n).map (fun i : ℕ => f (cur + (i : ℚ) * step)) := by
  intro n
  induction n with
  | zero => intro cur _; simp [whileStep]
  | succ n ih =>
    intro cur hn
    have hpos : 0 < ⌈(stop - cur) / step⌉ := by
      by_contra hc
      push_neg at hc
      have hz : loopFuel step cur stop = 0 := by
        unfold loopFuel
        omega
      omega
    have hlt : cur < stop := by
      have h1 : 0 < (stop - cur) / step := Int.ceil_pos.mp hpos
      rcases div_pos_iff.mp h1 with ⟨h2, _⟩ | ⟨_, h3⟩
      · linarith
      · linarith
    have hrec : n = loopFuel step (cur + step) stop := by
      have := loopFuel_succ hstep hlt
      omega
    simp only [whileStep, if_pos hlt]
    rw [ih (cur + step) hrec, List.range_succ_eq_map]
    simp only [List.map_cons, List.map_map]
    congr 1
    · norm_num
    · apply List.map_congr_left
      intro i _
      simp only [Function.comp_apply]
      congr 1
      push_cast
      ring

/-- The loop as a map over `List.range`, for positive step. -/
theorem whileLt_eq_map_range {α : Type} {step : ℚ} (hstep : 0 < step)
    (f : ℚ → α) (start stop : ℚ) :
    whileLt step f start stop =
      (List.range (loopFuel step start stop)).map
        (fun i : ℕ => f (start + (i : ℚ) * step)) :=
  whileStep_eq_map_range hstep f _ start rfl

/-- The i-th element of the loop output, for positive step. -/
theorem whileLt_get {α : Type} {step : ℚ} (hstep : 0 < step) (f : ℚ → α)
    (start stop : ℚ) (i : ℕ) (h : i < (whileLt step f start stop).length) :
    (whileLt step f start stop).get ⟨i, h⟩ = f (start + (i : ℚ) * step) := by
  rw [List.get_of_eq (whileLt_eq_map_range hstep f start stop)]
  simp

/-- A cursor whose index is below the fuel has not yet reached the stop
value. -/
theorem lt_of_lt_loopFuel {step start stop : ℚ} {k : ℕ} (hstep : 0 < step)
    (hk : k < loopFuel step start stop) :
    start + (k : ℚ) * step < stop := by
  unfold loopFuel at hk
  have h1 : (k : ℤ) < ⌈(stop - start) / step⌉ := by omega
  have h2 : ((k : ℤ) : ℚ) < (stop - start) / step := Int.lt_ceil.mp h1
  rw [lt_div_iff₀ hstep] at h2
  have h3 : (k : ℚ) * step < stop - start := by exact_mod_cast h2
  linarith

/-- An index whose interval start lies at or below a point of the range is
below the fuel. -/
theorem lt_loopFuel_of_le {step start stop x : ℚ} {k : ℕ} (hstep : 0 < step)
    (h1 : start + (k : ℚ) * step ≤ x) (h2 : x < stop) :
    k < loopFuel step start stop := by
  unfold loopFuel
  have hq : (k : ℚ) < (stop - start) / step := by
    rw [lt_div_iff₀ hstep]
    linarith
  have h3 : (k : ℤ) < ⌈(stop - start) / step⌉ := Int.lt_ceil.mpr (by exact_mod_cast hq)
  omega

/-- Any point of the half-open range `[start, stop)` lies in the half-open
step interval of some iteration of the loop. -/
theorem exists_loop_index {step start stop x : ℚ} (hstep : 0 < step)
    (hlo : start ≤ x) (hhi : x < stop) :
    ∃ i : Nat, i < loopFuel step start stop ∧
      start + (i : ℚ) * step ≤ x ∧ x < start + (i : ℚ) * step + step := by
  have hne : step ≠ 0 := ne_of_gt hstep
  set y : ℚ := (x - start) / step with hy
  have hy0 : 0 ≤ y := div_nonneg (by linarith) (le_of_lt hstep)
  have hfl : 0 ≤ ⌊y⌋ := Int.floor_nonneg.mpr hy0
  have hcast : ((⌊y⌋.toNat : ℕ) : ℚ) = (⌊y⌋ : ℚ) := by
    exact_mod_cast Int.toNat_of_nonneg hfl
  have h1 : (⌊y⌋ : ℚ) ≤ y := Int.floor_le y
  have h2 : y < ⌊y⌋ + 1 := Int.lt_floor_add_one y
  have h3 : y * step = x - start := div_mul_cancel₀ _ hne
  refine ⟨⌊y⌋.toNat, ?_, ?_, ?_⟩
  · have hyz : y < (stop - start) / step := by
      rw [hy]
      exact (div_lt_div_iff_of_pos_right hstep).mpr (by linarith)
    have hceil : ⌊y⌋ < ⌈(stop - start) / step⌉ := by
      rw [Int.lt_ceil]
      calc (⌊y⌋ : ℚ) ≤ y := h1
        _ < _ := hyz
    unfold loopFuel
    omega
  · rw [hcast]
    have := mul_le_mul_of_nonneg_right h1 (le_of_lt hstep)
    rw [h3] at this
    linarith
  · rw [hcast]
    have := mul_lt_mul_of_pos_right h2 hstep
    rw [h3] at this
    nlinarith

/-- Two step intervals of the same positive lattice that share a point have
the same index. -/
theorem grid_index_unique {s x q : ℚ} {i j : ℤ} (hs : 0 < s)
    (h1 : q + (i : ℚ) * s ≤ x) (h2 : x < q + (i : ℚ) * s + s)
    (h1' : q + (j : ℚ) * s ≤ x) (h2' : x < q + (j : ℚ) * s + s) : i = j := by
  have key1 : (i : ℚ) * s < ((j : ℚ) + 1) * s := by nlinarith
  have key2 : (j : ℚ) * s < ((i : ℚ) + 1) * s := by nlinarith
  have h3 : (i : ℚ) < (j : ℚ) + 1 := (mul_lt_mul_right hs).mp key1
  have h4 : (j : ℚ) < (i : ℚ) + 1 := (mul_lt_mul_right hs).mp key2
  have h5 : i < j + 1 := by exact_mod_cast h3
  have h6 : j < i + 1 := by exact_mod_cast h4
  omega

/-- The floor-quantized origin brackets the point in a half-open interval of
width the step (lines 52-55 of the source, for nonnegative offsets). -/
theorem floor_origin_bounds {s x q : ℚ} (hs : 0 < s) :
    q + (⌊(x - q) / s⌋ : ℚ) * s ≤ x ∧ x < q + (⌊(x - q) / s⌋ : ℚ) * s + s := by
  have hne : s ≠ 0 := ne_of_gt hs
  have h1 : (⌊(x - q) / s⌋ : ℚ) ≤ (x - q) / s := Int.floor_le _
  have h2 : (x - q) / s < ⌊(x - q) / s⌋ + 1 := Int.lt_floor_add_one _
  have h3 : (x - q) / s * s = x - q := div_mul_cancel₀ _ hne
  constructor
  · have := mul_le_mul_of_nonneg_right h1 (le_of_lt hs)
    rw [h3] at this
    linarith
  · have := mul_lt_mul_of_pos_right h2 hs
    rw [h3] at this
    nlinarith

/-- Python `int` agrees with the floor on nonnegative arguments. -/
theorem pyTrunc_of_nonneg {q : ℚ} (h : 0 ≤ q) : pyTrunc q = ⌊q⌋ :=
  if_pos h

/-! Small list bookkeeping lemmas used to locate cells inside the loop
output. -/

theorem filter_flatten {α : Type} (p : α → Bool) :
    ∀ L : List (List α), L.flatten.filter p = (L.map (fun l => l.filter p)).flatten := by
  intro L
  induction L with
  | nil => rfl
  | cons l L ih => simp [List.filter_append, ih]

theorem filter_map_range_eq_nil {α : Type} {p : α → Bool} {f : Nat → α} {n : Nat}
    (h : ∀ j, j < n → ¬p (f j) = true) :
    ((List.range n).map f).filter p = [] := by
  apply List.filter_eq_nil_iff.mpr
  intro a ha
  rcases List.mem_map.mp ha with ⟨j, hj, rfl⟩
  exact h j (List.mem_range.mp hj)

theorem filter_map_range_eq_singleton {α : Type} {p : α → Bool} {f : Nat → α}
    {n j0 : Nat} (hj : j0 < n) (hp : p (f j0) = true)
    (huniq : ∀ j, j < n → p (f j) = true → j = j0) :
    ((List.range n).map f).filter p = [f j0] := by
  induction n with
  | zero => omega
  | succ n ih =>
    rw [List.range_succ, List.map_append, List.filter_append]
    by_cases hc : j0 = n
    · subst hc
      have h1 : ((List.range j0).map f).filter p = [] :=
        filter_map_range_eq_nil (fun j hjn hpj => by
          have := huniq j (by omega) hpj
          omega)
      rw [h1]
      simp [hp]
    · have hj' : j0 < n := by omega
      rw [ih hj' (fun j hjn hpj => huniq j (by omega) hpj)]
      have h2 : p (f n) = false := by
        cases hpn : p (f n)
        · rfl
        · exact absurd (huniq n (by omega) hpn).symm hc
      simp [h2]

theorem flatten_map_range_eq_singleton {α : Type} {g : Nat → List α}
    {n k0 : Nat} {c : α} (hk : k0 < n) (hg : g k0 = [c])
    (hnil : ∀ k, k < n → k ≠ k0 → g k = []) :
    ((List.range n).map g).flatten = [c] := by
  induction n with
  | zero => omega
  | succ n ih =>
    rw [List.range_succ, List.map_append, List.flatten_append]
    by_cases hc : k0 = n
    · subst hc
      have h1 : ((List.range k0).map g).flatten = [] := by
        rw [List.flatten_eq_nil_iff]
        intro l hl
        rcases List.mem_map.mp hl with ⟨k, hkm, rfl⟩
        have hklt : k < k0 := List.mem_range.mp hkm
        exact hnil k (by omega) (by omega)
      rw [h1]
      simp [hg]
    · have hk' : k0 < n := by omega
      rw [ih hk' (fun k hkn hne => hnil k (by omega) hne)]
      have h2 : g n = [] := hnil n (by omega) (fun he => hc he.symm)
      simp [h2]

theorem sum_map_const_range (m k : Nat) :
    ((List.range m).map (fun _ => k)).sum = m * k := by
  induction m with
  | zero => simp
  | succ m ih =>
    rw [List.range_succ, List.map_append, List.sum_append, ih]
    simp [Nat.succ_mul]

/-- C1: the spec requires a fatal ConfigurationError at construction for a
non-positive lat_step or lon_step, but GridSystem.__init__ (lines 29-39)
performs no validation and contains no raise statement: construction with
lat_step = 0 succeeds and returns an ordinary GridSystem carrying the
degenerate step (the failure then surfaces only later, as a division by zero
in lookups or a non-terminating enumeration). -/
theorem C1_zero_step_construction_succeeds :
    GridSystem.init ⟨⟨0, 0⟩, ⟨1, 1⟩⟩ 0 1 =
      Except.ok ⟨⟨⟨0, 0⟩, ⟨1, 1⟩⟩, 0, 1⟩ :=
  rfl

/-- C9: calculate_geodesic_distance (lines 145-154) is zero on coincident
points and symmetric in its two arguments (the geodesic backend is
spec-modelled, see `geodesic_meters`). -/
theorem C9_distance_zero_and_symmetric (A B : LatLon) :
    calculate_geodesic_distance A A = 0 ∧
    calculate_geodesic_distance A B = calculate_geodesic_distance B A := by
  unfold calculate_geodesic_distance geodesic_meters
  constructor
  · simp
  · simp [abs_sub_comm]

/-- C2: in get_grid_cells_for_surface the row cursor advances by the
longitude step (line 137 of the source), so the origin latitudes of two
consecutive rows of the returned table differ by exactly lon_step. -/
theorem C2_row_cursor_advances_by_lon_step (gs : GridSystem) (S : Surface)
    (hla : 0 < gs.lat_step) (hlo : 0 < gs.lon_step) (i : Nat)
    (hi : i + 1 < (gs.get_grid_cells_for_surface S).length)
    (c c' : GridCell)
    (hc : c ∈ (gs.get_grid_cells_for_surface S).get ⟨i, Nat.lt_of_succ_lt hi⟩)
    (hc' : c' ∈ (gs.get_grid_cells_for_surface S).get ⟨i + 1, hi⟩) :
    c'.surface.bottom_left.lat = c.surface.bottom_left.lat + gs.lon_step := by
  have key : ∀ (k : Nat) (hk : k < (gs.get_grid_cells_for_surface S).length)
      (d : GridCell), d ∈ (gs.get_grid_cells_for_surface S).get ⟨k, hk⟩ →
      d.surface.bottom_left.lat =
        (gs.surface.bottom_left.lat +
          (pyTrunc ((S.bottom_left.lat - gs.surface.bottom_left.lat) / gs.lat_step) : ℚ)
            * gs.lat_step) + (k : ℚ) * gs.lon_step := by
    intro k hk d hd
    have hd2 : d ∈ (whileLt gs.lon_step (fun current_lat =>
        whileLt gs.lon_step (fun current_lon =>
            GridCell.mk
              (Surface.mk (LatLon.mk current_lat current_lon)
                (LatLon.mk (min (current_lat + gs.lat_step) S.top_right.lat)
                  (min (current_lon + gs.lon_step) S.top_right.lon)))
              (gs.get_hash_from_latlon current_lat current_lon))
          (gs.surface.bottom_left.lon +
            (pyTrunc ((S.bottom_left.lon - gs.surface.bottom_left.lon) / gs.lon_step) : ℚ)
              * gs.lon_step) S.top_right.lon)
      (gs.surface.bottom_left.lat +
        (pyTrunc ((S.bottom_left.lat - gs.surface.bottom_left.lat) / gs.lat_step) : ℚ)
          * gs.lat_step) S.top_right.lat).get ⟨k, hk⟩ := hd
    rw [whileLt_get hlo] at hd2
    unfold whileLt at hd2
    rcases mem_whileStep hd2 with ⟨x, rfl⟩
    rfl
  have h1 := key i (Nat.lt_of_succ_lt hi) c hc
  have h2 := key (i + 1) hi c' hc'
  rw [h1, h2]
  push_cast
  ring

/-- C2 witness: on the demo grid, the first two rows of the coverage table
for the whole surface hold cells whose origin latitudes differ by lon_step. -/
theorem C2_row_cursor_witness :
    0 < demoGrid.lat_step ∧ 0 < demoGrid.lon_step ∧
    0 + 1 < (demoGrid.get_grid_cells_for_surface demoSurface).length ∧
    demoCellB.surface.bottom_left.lat =
      demoCellA.surface.bottom_left.lat + demoGrid.lon_step :=
  ⟨by decide, by decide, by decide,
   C2_row_cursor_advances_by_lon_step demoGrid demoSurface (by decide) (by decide)
     0 (by decide) demoCellA demoCellB (by decide) (by decide)⟩

/-- C7: with both steps positive, get_all_grid_cells yields a finite list (the
fuel of the loop model is exactly the loop's iteration count, see
`whileStep_eq_map_range`) whose length is bounded by the product of the two
ceilings of extent over step. -/
theorem C7_enumeration_length_bound (gs : GridSystem)
    (hla : 0 < gs.lat_step) (hlo : 0 < gs.lon_step) :
    gs.get_all_grid_cells.length ≤
      (⌈(gs.surface.top_right.lat - gs.surface.bottom_left.lat) / gs.lat_step⌉).toNat *
      (⌈(gs.surface.top_right.lon - gs.surface.bottom_left.lon) / gs.lon_step⌉).toNat := by
  unfold GridSystem.get_all_grid_cells
  rw [whileLt_eq_map_range hla]
  simp only [whileLt_eq_map_range hlo]
  rw [List.length_flatten]
  simp only [List.map_map, Function.comp_def, List.length_map, List.length_range]
  rw [sum_map_const_range]
  unfold loopFuel
  exact Nat.le_refl _

/-- C7 witness: the demo grid enumerates at most 2 * 2 cells. -/
theorem C7_enumeration_length_witness :
    0 < demoGrid.lat_step ∧ 0 < demoGrid.lon_step ∧
    demoGrid.get_all_grid_cells.length ≤
      (⌈(demoGrid.surface.top_right.lat - demoGrid.surface.bottom_left.lat) /
          demoGrid.lat_step⌉).toNat *
      (⌈(demoGrid.surface.top_right.lon - demoGrid.surface.bottom_left.lon) /
          demoGrid.lon_step⌉).toNat :=
  ⟨by decide, by decide, C7_enumeration_length_bound demoGrid (by decide) (by decide)⟩

/-- C8: every cell any of the three query operations returns carries a hash
computed from its own footprint's bottom-left corner, never from the query
point or any other coordinate. -/
theorem C8_hash_is_of_own_origin (gs : GridSystem) (lat lon : ℚ) (S : Surface)
    (c : GridCell)
    (h : gs.get_grid_cell_by_latlon lat lon = some c ∨
         c ∈ gs.get_all_grid_cells ∨
         ∃ row ∈ gs.get_grid_cells_for_surface S, c ∈ row) :
    c.hash_id =
      gs.get_hash_from_latlon c.surface.bottom_left.lat c.surface.bottom_left.lon := by
  rcases h with h | h | ⟨row, hrow, hc⟩
  · unfold GridSystem.get_grid_cell_by_latlon at h
    by_cases hg : gs.surface.containsPt lat lon
    · simp only [if_pos hg, Option.some.injEq] at h
      subst h
      rfl
    · rw [if_neg hg] at h
      exact absurd h (by simp)
  · unfold GridSystem.get_all_grid_cells at h
    rcases List.mem_flatten.mp h with ⟨row, hrow, hc⟩
    unfold whileLt at hrow
    rcases mem_whileStep hrow with ⟨x, rfl⟩
    rcases mem_whileStep hc with ⟨y, rfl⟩
    rfl
  · simp only [GridSystem.get_grid_cells_for_surface] at hrow
    unfold whileLt at hrow
    rcases mem_whileStep hrow with ⟨x, rfl⟩
    rcases mem_whileStep hc with ⟨y, rfl⟩
    rfl

/-- C8 witness: the cell looked up at (1/2, 1/2) on the demo grid hashes its
own origin corner (0, 0). -/
theorem C8_hash_witness :
    demoGrid.get_grid_cell_by_latlon (1/2) (1/2) = some demoCellA ∧
    demoCellA.hash_id =
      demoGrid.get_hash_from_latlon demoCellA.surface.bottom_left.lat
        demoCellA.surface.bottom_left.lon :=
  ⟨by decide,
   C8_hash_is_of_own_origin demoGrid (1/2) (1/2) demoSurface demoCellA
     (Or.inl (by decide))⟩

/-- C4: get_grid_cell_by_latlon returns none exactly when the query point
lies outside the half-open region between the surface corners on either axis,
and when it returns a cell that cell's half-open footprint contains the
point. -/
theorem C4_lookup_none_iff_outside_and_contains (gs : GridSystem)
    (lat lon : ℚ) (hla : 0 < gs.lat_step) (hlo : 0 < gs.lon_step) :
    (gs.get_grid_cell_by_latlon lat lon = none ↔
      ¬gs.surface.containsPt lat lon) ∧
    ∀ c, gs.get_grid_cell_by_latlon lat lon = some c →
      c.surface.containsPt lat lon := by
  unfold GridSystem.get_grid_cell_by_latlon
  by_cases hg : gs.surface.containsPt lat lon
  · simp only [if_pos hg]
    constructor
    · constructor
      · intro h
        exact absurd h (by simp)
      · intro h
        exact absurd hg h
    · intro c hc
      simp only [Option.some.injEq] at hc
      subst hc
      rcases hg with ⟨hg1, hg2, hg3, hg4⟩
      have t1 : pyTrunc ((lat - gs.surface.bottom_left.lat) / gs.lat_step) =
          ⌊(lat - gs.surface.bottom_left.lat) / gs.lat_step⌋ :=
        pyTrunc_of_nonneg (div_nonneg (by linarith) (le_of_lt hla))
      have t2 : pyTrunc ((lon - gs.surface.bottom_left.lon) / gs.lon_step) =
          ⌊(lon - gs.surface.bottom_left.lon) / gs.lon_step⌋ :=
        pyTrunc_of_nonneg (div_nonneg (by linarith) (le_of_lt hlo))
      have e1 := floor_origin_bounds (x := lat) (q := gs.surface.bottom_left.lat) hla
      have e2 := floor_origin_bounds (x := lon) (q := gs.surface.bottom_left.lon) hlo
      exact ⟨by rw [t1]; exact e1.1,
             by rw [t1]; exact lt_min (by linarith [e1.2]) hg2,
             by rw [t2]; exact e2.1,
             by rw [t2]; exact lt_min (by linarith [e2.2]) hg4⟩
  · simp only [if_neg hg]
    constructor
    · simp [hg]
    · intro c hc
      simp at hc

/-- C4 witness: at (1/2, 1/2) the demo grid's lookup is not none, and the
returned cell's footprint contains the point; at the top edge (2, 1/2) the
lookup is none. -/
theorem C4_lookup_witness :
    0 < demoGrid.lat_step ∧ 0 < demoGrid.lon_step ∧
    ((demoGrid.get_grid_cell_by_latlon (1/2) (1/2) = none ↔
      ¬demoGrid.surface.containsPt (1/2) (1/2)) ∧
    ∀ c, demoGrid.get_grid_cell_by_latlon (1/2) (1/2) = some c →
      c.surface.containsPt (1/2) (1/2)) :=
  ⟨by decide, by decide,
   C4_lookup_none_iff_outside_and_contains demoGrid (1/2) (1/2)
     (by decide) (by decide)⟩

/-- C6 counterexample: the coordinates 0 and -1e-9 round to the same
6-decimal value (zero, so also hash_of(lat, lon) with lat = -1e-9 versus
lat + 1e-9 = 0), yet the hashes differ, because the fixed-precision format
keeps the sign of a negative value: -1e-9 prints as "-0.000000" while 0
prints as "0.000000", and the two digests differ with the messages. -/
theorem C6_hash_not_stable_across_zero :
    round6 (-1 / 1000000000) = round6 0 ∧
    demoGrid.get_hash_from_latlon (-1 / 1000000000) 0 ≠
      demoGrid.get_hash_from_latlon 0 0 := by
  decide

/-- The fixed-precision format is determined by the rounded scaled value
together with the sign of the argument. -/
theorem fmt6_congr {a b : ℚ}
    (hr : roundHalfEven (a * 1000000) = roundHalfEven (b * 1000000))
    (hs : a < 0 ↔ b < 0) : fmt6 a = fmt6 b := by
  unfold fmt6
  rw [hr]
  by_cases h : a < 0
  · rw [if_pos h, if_pos (hs.mp h)]
  · rw [if_neg h, if_neg (fun hb => h (hs.mpr hb))]

/-- Equal 6-decimal roundings have equal rounded scaled values. -/
theorem round6_eq_iff_scaled_eq {a b : ℚ} (h : round6 a = round6 b) :
    roundHalfEven (a * 1000000) = roundHalfEven (b * 1000000) := by
  unfold round6 at h
  have h2 : (roundHalfEven (a * 1000000) : ℚ) =
      (roundHalfEven (b * 1000000) : ℚ) := by
    field_simp at h
    exact_mod_cast h
  exact_mod_cast h2

/-- C6 amended: the hash function is a pure function of its arguments, and
two input pairs whose coordinates round to the same 6-decimal values and
agree in sign (the sign only matters for values that round to zero) produce
identical output. -/
theorem C6_hash_stable_with_matching_sign (gs : GridSystem)
    (lat1 lon1 lat2 lon2 : ℚ)
    (hlat : round6 lat1 = round6 lat2) (hlon : round6 lon1 = round6 lon2)
    (hslat : lat1 < 0 ↔ lat2 < 0) (hslon : lon1 < 0 ↔ lon2 < 0) :
    gs.get_hash_from_latlon lat1 lon1 = gs.get_hash_from_latlon lat2 lon2 := by
  unfold GridSystem.get_hash_from_latlon
  rw [fmt6_congr (round6_eq_iff_scaled_eq hlat) hslat,
      fmt6_congr (round6_eq_iff_scaled_eq hlon) hslon]

/-- C6 amended witness: 1e-9 and 2e-9 round to the same 6-decimal value and
are both nonnegative, so they hash identically (with equal longitudes). -/
theorem C6_hash_stable_witness :
    round6 (1 / 1000000000) = round6 (2 / 1000000000) ∧
    ((1 : ℚ) / 1000000000 < 0 ↔ (2 : ℚ) / 1000000000 < 0) ∧
    demoGrid.get_hash_from_latlon (1 / 1000000000) 0 =
      demoGrid.get_hash_from_latlon (2 / 1000000000) 0 :=
  ⟨by decide, by decide,
   C6_hash_stable_with_matching_sign demoGrid (1 / 1000000000) 0
     (2 / 1000000000) 0 (by decide) (by decide) (by decide) (by decide)⟩

/-- C3 counterexample: on a grid with lat_step = 1 and lon_step = 2 over
(0,0)-(4,4), the coverage table for the full surface (which satisfies the
claim's hypotheses: positive steps, input fully contained) misses the point
(3/2, 1/2): the rows advance by lon_step = 2 while each cell is only
lat_step = 1 tall, leaving the band 1 <= lat < 2 uncovered. -/
theorem C3_coverage_counterexample :
    0 < skewGrid.lat_step ∧ 0 < skewGrid.lon_step ∧
    (skewGrid.surface.bottom_left.lat ≤ skewSurface.bottom_left.lat ∧
     skewGrid.surface.bottom_left.lon ≤ skewSurface.bottom_left.lon ∧
     skewSurface.top_right.lat ≤ skewGrid.surface.top_right.lat ∧
     skewSurface.top_right.lon ≤ skewGrid.surface.top_right.lon) ∧
    skewSurface.containsPt (3/2) (1/2) ∧
    ∀ c ∈ (skewGrid.get_grid_cells_for_surface skewSurface).flatten,
      ¬c.surface.containsPt (3/2) (1/2) := by
  decide

/-- C3 amended: when additionally lon_step ≤ lat_step (so that consecutive
rows, advancing by lon_step, overlap or tile the lat axis), the footprints of
the coverage table cover every point of the half-open input surface. -/
theorem C3_coverage_when_lon_step_le_lat_step (gs : GridSystem) (S : Surface)
    (plat plon : ℚ) (hla : 0 < gs.lat_step) (hlo : 0 < gs.lon_step)
    (hll : gs.lon_step ≤ gs.lat_step)
    (hc1 : gs.surface.bottom_left.lat ≤ S.bottom_left.lat)
    (hc2 : gs.surface.bottom_left.lon ≤ S.bottom_left.lon)
    (hc3 : S.top_right.lat ≤ gs.surface.top_right.lat)
    (hc4 : S.top_right.lon ≤ gs.surface.top_right.lon)
    (hp : S.containsPt plat plon) :
    ∃ c ∈ (gs.get_grid_cells_for_surface S).flatten,
      c.surface.containsPt plat plon := by
  obtain ⟨hp1, hp2, hp3, hp4⟩ := id hp
  have dn1 : (0 : ℚ) ≤ (S.bottom_left.lat - gs.surface.bottom_left.lat) / gs.lat_step :=
    div_nonneg (by linarith) (le_of_lt hla)
  have dn2 : (0 : ℚ) ≤ (S.bottom_left.lon - gs.surface.bottom_left.lon) / gs.lon_step :=
    div_nonneg (by linarith) (le_of_lt hlo)
  have t1 : pyTrunc ((S.bottom_left.lat - gs.surface.bottom_left.lat) / gs.lat_step) =
      ⌊(S.bottom_left.lat - gs.surface.bottom_left.lat) / gs.lat_step⌋ :=
    pyTrunc_of_nonneg dn1
  have t2 : pyTrunc ((S.bottom_left.lon - gs.surface.bottom_left.lon) / gs.lon_step) =
      ⌊(S.bottom_left.lon - gs.surface.bottom_left.lon) / gs.lon_step⌋ :=
    pyTrunc_of_nonneg dn2
  have s1 := floor_origin_bounds (x := S.bottom_left.lat)
    (q := gs.surface.bottom_left.lat) hla
  have s2 := floor_origin_bounds (x := S.bottom_left.lon)
    (q := gs.surface.bottom_left.lon) hlo
  obtain ⟨k, hk, hk1, hk2⟩ := @exists_loop_index gs.lon_step
    (gs.surface.bottom_left.lat +
      (⌊(S.bottom_left.lat - gs.surface.bottom_left.lat) / gs.lat_step⌋ : ℚ)
        * gs.lat_step)
    S.top_right.lat plat hlo (by linarith [s1.1]) hp2
  obtain ⟨j, hj, hj1, hj2⟩ := @exists_loop_index gs.lon_step
    (gs.surface.bottom_left.lon +
      (⌊(S.bottom_left.lon - gs.surface.bottom_left.lon) / gs.lon_step⌋ : ℚ)
        * gs.lon_step)
    S.top_right.lon plon hlo (by linarith [s2.1]) hp4
  simp only [GridSystem.get_grid_cells_for_surface, t1, t2]
  simp only [whileLt_eq_map_range hlo]
  refine ⟨_, List.mem_flatten.mpr ⟨_,
    List.mem_map.mpr ⟨k, List.mem_range.mpr hk, rfl⟩,
    List.mem_map.mpr ⟨j, List.mem_range.mpr hj, rfl⟩⟩, ?_⟩
  dsimp only
  exact ⟨hk1, lt_min (by linarith) hp2, hj1, lt_min (by linarith) hp4⟩

/-- C3 amended witness: on the demo grid (equal steps) the coverage table of
the full surface contains a cell holding the point (1/2, 1/2). -/
theorem C3_coverage_witness :
    0 < demoGrid.lat_step ∧ 0 < demoGrid.lon_step ∧
    demoGrid.lon_step ≤ demoGrid.lat_step ∧
    demoSurface.containsPt (1/2) (1/2) ∧
    ∃ c ∈ (demoGrid.get_grid_cells_for_surface demoSurface).flatten,
      c.surface.containsPt (1/2) (1/2) :=
  ⟨by decide, by decide, by decide, by decide,
   C3_coverage_when_lon_step_le_lat_step demoGrid demoSurface (1/2) (1/2)
     (by decide) (by decide) (by decide) (by decide) (by decide) (by decide)
     (by decide) (by decide)⟩

/-- C5: for a point inside the half-open surface, the lookup returns a cell,
and that cell is the unique member of the full enumeration whose footprint
contains the point (same footprint and same hash), although the lookup
computes the origin by index multiplication and the enumeration by repeated
step addition, which coincide over exact arithmetic. -/
theorem C5_lookup_agrees_with_enumeration (gs : GridSystem) (plat plon : ℚ)
    (hla : 0 < gs.lat_step) (hlo : 0 < gs.lon_step)
    (hin : gs.surface.containsPt plat plon) :
    ∃ c, gs.get_grid_cell_by_latlon plat plon = some c ∧
      (gs.get_all_grid_cells).filter
        (fun x => decide (x.surface.containsPt plat plon)) = [c] := by
  obtain ⟨hg1, hg2, hg3, hg4⟩ := id hin
  have dn1 : (0 : ℚ) ≤ (plat - gs.surface.bottom_left.lat) / gs.lat_step :=
    div_nonneg (by linarith) (le_of_lt hla)
  have dn2 : (0 : ℚ) ≤ (plon - gs.surface.bottom_left.lon) / gs.lon_step :=
    div_nonneg (by linarith) (le_of_lt hlo)
  have flnn : 0 ≤ ⌊(plat - gs.surface.bottom_left.lat) / gs.lat_step⌋ :=
    Int.floor_nonneg.mpr dn1
  have fonn : 0 ≤ ⌊(plon - gs.surface.bottom_left.lon) / gs.lon_step⌋ :=
    Int.floor_nonneg.mpr dn2
  have cfl : ((⌊(plat - gs.surface.bottom_left.lat) / gs.lat_step⌋.toNat : ℕ) : ℚ) =
      (⌊(plat - gs.surface.bottom_left.lat) / gs.lat_step⌋ : ℚ) := by
    exact_mod_cast Int.toNat_of_nonneg flnn
  have cfo : ((⌊(plon - gs.surface.bottom_left.lon) / gs.lon_step⌋.toNat : ℕ) : ℚ) =
      (⌊(plon - gs.surface.bottom_left.lon) / gs.lon_step⌋ : ℚ) := by
    exact_mod_cast Int.toNat_of_nonneg fonn
  have e1 := floor_origin_bounds (x := plat) (q := gs.surface.bottom_left.lat) hla
  have e2 := floor_origin_bounds (x := plon) (q := gs.surface.bottom_left.lon) hlo
  have t1 : pyTrunc ((plat - gs.surface.bottom_left.lat) / gs.lat_step) =
      ⌊(plat - gs.surface.bottom_left.lat) / gs.lat_step⌋ := pyTrunc_of_nonneg dn1
  have t2 : pyTrunc ((plon - gs.surface.bottom_left.lon) / gs.lon_step) =
      ⌊(plon - gs.surface.bottom_left.lon) / gs.lon_step⌋ := pyTrunc_of_nonneg dn2
  refine ⟨GridCell.mk (Surface.mk
      (LatLon.mk
        (gs.surface.bottom_left.lat +
          (⌊(plat - gs.surface.bottom_left.lat) / gs.lat_step⌋ : ℚ) * gs.lat_step)
        (gs.surface.bottom_left.lon +
          (⌊(plon - gs.surface.bottom_left.lon) / gs.lon_step⌋ : ℚ) * gs.lon_step))
      (LatLon.mk
        (min (gs.surface.bottom_left.lat +
          (⌊(plat - gs.surface.bottom_left.lat) / gs.lat_step⌋ : ℚ) * gs.lat_step
            + gs.lat_step) gs.surface.top_right.lat)
        (min (gs.surface.bottom_left.lon +
          (⌊(plon - gs.surface.bottom_left.lon) / gs.lon_step⌋ : ℚ) * gs.lon_step
            + gs.lon_step) gs.surface.top_right.lon)))
      (gs.get_hash_from_latlon
        (gs.surface.bottom_left.lat +
          (⌊(plat - gs.surface.bottom_left.lat) / gs.lat_step⌋ : ℚ) * gs.lat_step)
        (gs.surface.bottom_left.lon +
          (⌊(plon - gs.surface.bottom_left.lon) / gs.lon_step⌋ : ℚ) * gs.lon_step)),
    ?_, ?_⟩
  · unfold GridSystem.get_grid_cell_by_latlon
    rw [if_pos hin]
    simp only [t1, t2]
  · unfold GridSystem.get_all_grid_cells
    rw [whileLt_eq_map_range hla]
    simp only [whileLt_eq_map_range hlo]
    rw [filter_flatten, List.map_map]
    have hk0 : ⌊(plat - gs.surface.bottom_left.lat) / gs.lat_step⌋.toNat <
        loopFuel gs.lat_step gs.surface.bottom_left.lat gs.surface.top_right.lat :=
      lt_loopFuel_of_le hla (by rw [cfl]; exact e1.1) hg2
    have hj0 : ⌊(plon - gs.surface.bottom_left.lon) / gs.lon_step⌋.toNat <
        loopFuel gs.lon_step gs.surface.bottom_left.lon gs.surface.top_right.lon :=
      lt_loopFuel_of_le hlo (by rw [cfo]; exact e2.1) hg4
    apply flatten_map_range_eq_singleton hk0
    · simp only [Function.comp_apply]
      rw [← cfl, ← cfo]
      apply filter_map_range_eq_singleton hj0
      · apply decide_eq_true
        refine ⟨?_, ?_, ?_, ?_⟩
        · rw [cfl]
          exact e1.1
        · rw [cfl]
          exact lt_min e1.2 hg2
        · rw [cfo]
          exact e2.1
        · rw [cfo]
          exact lt_min e2.2 hg4
      · intro j hj hpj
        have hcont := of_decide_eq_true hpj
        obtain ⟨q1, q2, q3, q4⟩ := hcont
        have q4m : plon < gs.surface.bottom_left.lon + (j : ℚ) * gs.lon_step +
            gs.lon_step := lt_of_lt_of_le q4 (min_le_left _ _)
        have hj_eq : (j : ℤ) = ⌊(plon - gs.surface.bottom_left.lon) / gs.lon_step⌋ :=
          grid_index_unique hlo (by exact_mod_cast q3) (by exact_mod_cast q4m)
            e2.1 e2.2
        omega
    · intro k hk hne
      simp only [Function.comp_apply]
      apply filter_map_range_eq_nil
      intro j hj hpj
      have hcont := of_decide_eq_true hpj
      obtain ⟨q1, q2, q3, q4⟩ := hcont
      have q2m : plat < gs.surface.bottom_left.lat + (k : ℚ) * gs.lat_step +
          gs.lat_step := lt_of_lt_of_le q2 (min_le_left _ _)
      have hk_eq : (k : ℤ) = ⌊(plat - gs.surface.bottom_left.lat) / gs.lat_step⌋ :=
        grid_index_unique hla (by exact_mod_cast q1) (by exact_mod_cast q2m)
          e1.1 e1.2
      exact hne (by omega)

/-- C5 witness: on the demo grid the point (1/2, 1/2) is looked up to the
origin cell, which is also the unique enumerated cell containing it. -/
theorem C5_lookup_agrees_witness :
    0 < demoGrid.lat_step ∧ 0 < demoGrid.lon_step ∧
    demoGrid.surface.containsPt (1/2) (1/2) ∧
    ∃ c, demoGrid.get_grid_cell_by_latlon (1/2) (1/2) = some c ∧
      (demoGrid.get_all_grid_cells).filter
        (fun x => decide (x.surface.containsPt (1/2) (1/2))) = [c] :=
  ⟨by decide, by decide, by decide,
   C5_lookup_agrees_with_enumeration demoGrid (1/2) (1/2)
     (by decide) (by decide) (by decide)⟩

/-- C10: on a well-formed surface with positive steps, every cell returned by
the point lookup or yielded by the full enumeration has a strictly well-formed
footprint that lies inside the governing surface. -/
theorem C10_cells_well_formed_and_contained (gs : GridSystem)
    (hw1 : gs.surface.bottom_left.lat ≤ gs.surface.top_right.lat)
    (hw2 : gs.surface.bottom_left.lon ≤ gs.surface.top_right.lon)
    (hla : 0 < gs.lat_step) (hlo : 0 < gs.lon_step)
    (lat lon : ℚ) (c : GridCell)
    (h : gs.get_grid_cell_by_latlon lat lon = some c ∨
         c ∈ gs.get_all_grid_cells) :
    (c.surface.bottom_left.lat < c.surface.top_right.lat ∧
     c.surface.bottom_left.lon < c.surface.top_right.lon) ∧
    (gs.surface.bottom_left.lat ≤ c.surface.bottom_left.lat ∧
     c.surface.top_right.lat ≤ gs.surface.top_right.lat ∧
     gs.surface.bottom_left.lon ≤ c.surface.bottom_left.lon ∧
     c.surface.top_right.lon ≤ gs.surface.top_right.lon) := by
  rcases h with h | h
  · unfold GridSystem.get_grid_cell_by_latlon at h
    by_cases hg : gs.surface.containsPt lat lon
    · simp only [if_pos hg, Option.some.injEq] at h
      subst h
      rcases hg with ⟨hg1, hg2, hg3, hg4⟩
      have t1 : pyTrunc ((lat - gs.surface.bottom_left.lat) / gs.lat_step) =
          ⌊(lat - gs.surface.bottom_left.lat) / gs.lat_step⌋ :=
        pyTrunc_of_nonneg (div_nonneg (by linarith) (le_of_lt hla))
      have t2 : pyTrunc ((lon - gs.surface.bottom_left.lon) / gs.lon_step) =
          ⌊(lon - gs.surface.bottom_left.lon) / gs.lon_step⌋ :=
        pyTrunc_of_nonneg (div_nonneg (by linarith) (le_of_lt hlo))
      have e1 := floor_origin_bounds (x := lat) (q := gs.surface.bottom_left.lat) hla
      have e2 := floor_origin_bounds (x := lon) (q := gs.surface.bottom_left.lon) hlo
      have f1 : (0 : ℚ) ≤ (⌊(lat - gs.surface.bottom_left.lat) / gs.lat_step⌋ : ℚ) := by
        exact_mod_cast Int.floor_nonneg.mpr (div_nonneg (by linarith) (le_of_lt hla))
      have f2 : (0 : ℚ) ≤ (⌊(lon - gs.surface.bottom_left.lon) / gs.lon_step⌋ : ℚ) := by
        exact_mod_cast Int.floor_nonneg.mpr (div_nonneg (by linarith) (le_of_lt hlo))
      simp only [t1, t2]
      have m1 : (0 : ℚ) ≤
          (⌊(lat - gs.surface.bottom_left.lat) / gs.lat_step⌋ : ℚ) * gs.lat_step :=
        mul_nonneg f1 (le_of_lt hla)
      have m2 : (0 : ℚ) ≤
          (⌊(lon - gs.surface.bottom_left.lon) / gs.lon_step⌋ : ℚ) * gs.lon_step :=
        mul_nonneg f2 (le_of_lt hlo)
      refine ⟨⟨lt_min (by linarith) (by linarith [e1.1]),
              lt_min (by linarith) (by linarith [e2.1])⟩,
             by linarith, min_le_right _ _, by linarith, min_le_right _ _⟩
    · rw [if_neg hg] at h
      exact absurd h (by simp)
  · unfold GridSystem.get_all_grid_cells at h
    rw [whileLt_eq_map_range hla] at h
    simp only [whileLt_eq_map_range hlo] at h
    rcases List.mem_flatten.mp h with ⟨row, hrow, hc⟩
    rcases List.mem_map.mp hrow with ⟨k, hkr, rfl⟩
    rcases List.mem_map.mp hc with ⟨j, hjr, rfl⟩
    have hk := List.mem_range.mp hkr
    have hj := List.mem_range.mp hjr
    have hkT := lt_of_lt_loopFuel hla hk
    have hjT := lt_of_lt_loopFuel hlo hj
    have mk1 : (0 : ℚ) ≤ (k : ℚ) * gs.lat_step :=
      mul_nonneg (Nat.cast_nonneg k) (le_of_lt hla)
    have mj1 : (0 : ℚ) ≤ (j : ℚ) * gs.lon_step :=
      mul_nonneg (Nat.cast_nonneg j) (le_of_lt hlo)
    dsimp only
    exact ⟨⟨lt_min (by linarith) hkT, lt_min (by linarith) hjT⟩,
           by linarith, min_le_right _ _, by linarith, min_le_right _ _⟩

/-- C10 witness: the cell looked up at (1/2, 1/2) on the demo grid is
well-formed and contained in the demo surface. -/
theorem C10_cells_witness :
    demoGrid.surface.bottom_left.lat ≤ demoGrid.surface.top_right.lat ∧
    0 < demoGrid.lat_step ∧
    demoGrid.get_grid_cell_by_latlon (1/2) (1/2) = some demoCellA ∧
    ((demoCellA.surface.bottom_left.lat < demoCellA.surface.top_right.lat ∧
      demoCellA.surface.bottom_left.lon < demoCellA.surface.top_right.lon) ∧
     (demoGrid.surface.bottom_left.lat ≤ demoCellA.surface.bottom_left.lat ∧
      demoCellA.surface.top_right.lat ≤ demoGrid.surface.top_right.lat ∧
      demoGrid.surface.bottom_left.lon ≤ demoCellA.surface.bottom_left.lon ∧
      demoCellA.surface.top_right.lon ≤ demoGrid.surface.top_right.lon)) :=
  ⟨by decide, by decide, by decide,
   C10_cells_well_formed_and_contained demoGrid (by decide) (by decide)
     (by decide) (by decide) (1/2) (1/2) demoCellA (Or.inl (by decide))⟩

end MapUtils
